import Mathlib

/-!
Verification development for the `toolachieving` intent router and plan
orchestrator (`router/intent_router.py`, `app.py`, `core/registry.py`).

The Python code is shallowly embedded: queries are lists of characters,
confidences and similarity scores are rationals, the regex alternations of
literal words become substring searches, and the effectful collaborators
(the FAISS probe, the LLM suggestion call, the tool handlers) are supplied
through explicit environment records.  A tool handler that raises is
modelled with `Except`; a Python statement that can raise an uncaught
exception is modelled by an `Option`/`Except` failure value.
-/

namespace ToolAchieving

/-! ## Character and word utilities

`isSubL w l` is Python `re.search` of the literal word `w` in `l`
(equivalently `w in l` for plain substrings).  `containsAny` is a regex
alternation of literal words, `seqMatch` is a pattern `(a1|a2|...).*(b1|b2|...)`.
-/

/-- Substring test: does the word `w` occur contiguously inside `l`? -/
def isSubL (w : List Char) : List Char → Bool
  | [] => w.isEmpty
  | c :: r => w.isPrefixOf (c :: r) || isSubL w r

/-- `re.search` of an alternation of literal words. -/
def containsAny (ws : List (List Char)) (l : List Char) : Bool :=
  ws.any fun w => isSubL w l

/-- `re.search` of a pattern `(a1|...|an).*(b1|...|bm)`: some `a` occurs and
some `b` occurs at or after the end of that occurrence of `a`. -/
def seqMatch (as bs : List (List Char)) : List Char → Bool
  | [] => false
  | c :: r =>
    (as.any fun a => a.isPrefixOf (c :: r) && containsAny bs ((c :: r).drop a.length))
      || seqMatch as bs r

/-- Python `str.strip` / `\s`: ASCII whitespace (the model of `\s`). -/
def isWS (c : Char) : Bool := c.isWhitespace

/-- Left-strip. -/
def lstripL (l : List Char) : List Char := l.dropWhile isWS

/-- Python `str.strip()`: drop whitespace at both ends. -/
def trimL (l : List Char) : List Char :=
  ((lstripL l).reverse.dropWhile isWS).reverse

/-- Python `str.lower()` restricted to the characters this code meets:
ASCII letters are lowered, everything else (CJK, digits, punctuation) is
unchanged — exactly `Char.toLower`. -/
def lowerC (c : Char) : Char := c.toLower

/-! ## Signal detector word lists (the regex alternations of the source) -/

def timeWords : List (List Char) :=
  ["今天".data, "明天".data, "后天".data, "现在".data, "本周".data, "本月".data]

def weatherWords : List (List Char) :=
  ["天气".data, "气温".data, "温度".data, "下雨".data, "降雨".data, "晴".data,
   "阴".data, "多云".data, "台风".data, "空气质量".data]

def newsWords : List (List Char) :=
  ["新闻".data, "价格".data, "发布".data, "最新".data]

def kbHintWords : List (List Char) :=
  ["知识库".data, "文档".data, "文件".data, "资料".data, "报告".data, "手册".data,
   "说明书".data, "方案".data, "总结".data, "教程".data, "笔记".data]

def genWords : List (List Char) :=
  ["写".data, "短诗".data, "诗".data, "故事".data, "续写".data, "润色".data,
   "摘要".data, "总结".data, "概括".data, "定义".data, "解释".data, "推荐".data,
   "建议".data, "如何".data, "怎么".data, "一句话".data, "短文".data, "评论".data,
   "点评".data, "文案".data, "口播".data, "对联".data, "打油诗".data]

def mathKws : List (List Char) :=
  ["计算".data, "求值".data, "求最值".data, "求和".data, "方程".data, "解方程".data,
   "积分".data, "微分".data, "导数".data, "极限".data, "排列".data, "组合".data,
   "概率".data, "方差".data, "标准差".data, "矩阵".data, "行列式".data,
   "特征值".data, "阶乘".data]

/-- The character class `[\d\)\(\+\-\*/\^=]` (with `\d` modelled as the ASCII
digits, the only digits this router is exercised with). -/
def mathChars : List Char :=
  ['0', '1', '2', '3', '4', '5', '6', '7', '8', '9',
   ')', '(', '+', '-', '*', '/', '^', '=']

def isMathChar (c : Char) : Bool := decide (c ∈ mathChars)

/-- `re.search(r"[\d\)\(\+\-\*/\^=]{3,}", q)`: three consecutive characters
of the class occur. -/
def run3 : List Char → Bool
  | a :: b :: c :: r =>
      (isMathChar a && isMathChar b && isMathChar c) || run3 (b :: c :: r)
  | _ => false

/-- `web_signal` of `route` / `_prefer_llm`: TIME_WORDS, WEATHER_HINT or
NEWS_PRICE matches. -/
def webSignal (q : List Char) : Bool :=
  containsAny timeWords q || containsAny weatherWords q || containsAny newsWords q

/-- `math_signal` of `route` / `_prefer_llm`: a math keyword or a run of
three operator/digit characters. -/
def mathSignal (q : List Char) : Bool :=
  containsAny mathKws q || run3 q

/-- `re.search(KB_HINT, q)`. -/
def kbHintSig (q : List Char) : Bool := containsAny kbHintWords q

/-- `re.search(GEN_HINT, q)`. -/
def genHintSig (q : List Char) : Bool := containsAny genWords q

/-- `_prefer_llm`: generation/explanation hint with no web and no math
signal. -/
def prefer_llm (q : List Char) : Bool :=
  genHintSig q && !webSignal q && !mathSignal q

/-- The greeting alternatives of `GREET_HINT` (lower-case, as matched under
`re.IGNORECASE`). -/
def greetWords : List (List Char) :=
  ["你好".data, "您好".data, "哈喽".data, "嗨".data, "hi".data, "hello".data,
   "hey".data, "早上好".data, "中午好".data, "下午好".data, "晚上好".data]

/-- The trailing character class `[！!。\.\s]` of `GREET_HINT`. -/
def isGreetTail (c : Char) : Bool :=
  c = '！' || c = '!' || c = '。' || c = '.' || c.isWhitespace

/-- `_is_greet`: `re.match(GREET_HINT, q.strip(), re.IGNORECASE)` — the
stripped query is a greeting word followed only by greeting punctuation or
whitespace. -/
def is_greet (q : List Char) : Bool :=
  let t := (trimL q).map lowerC
  greetWords.any fun w => w.isPrefixOf t && (t.drop w.length).all isGreetTail

/-- `_is_short_query`: stripped length at most 6. -/
def is_short_query (q : List Char) : Bool := (trimL q).length ≤ 6

/-! ## Slot extraction (`_extract_slots`)

The slot values are advisory metadata (spec §4.1 point 4); no routing
decision depends on their content, only on the function being the same one
on both sides of a decision equality.
-/

/-- Slots dictionary: `when`/`location` present only when matched,
`provider` always set by `_extract_slots`. -/
structure SlotMap where
  when : Option String := none
  location : Option String := none
  provider : Option String := none
  deriving DecidableEq, Repr

/-- First (leftmost) alternative of a word alternation matching in `l`:
`re.search(...)` followed by `m.group(1)`. -/
def findFirstWord (ws : List (List Char)) : List Char → Option String
  | [] => none
  | c :: r =>
    match ws.find? (fun w => w.isPrefixOf (c :: r)) with
    | some w => some ⟨w⟩
    | none => findFirstWord ws r

/-- The CJK range `[一-龥]`. -/
def isHanzi (c : Char) : Bool :=
  0x4e00 ≤ c.toNat && c.toNat ≤ 0x9fa5

def locSuffixWords : List (List Char) := ["市".data, "省".data, "区".data, "县".data]

def weatherTailWords : List (List Char) := ["天气".data, "气温".data, "温度".data]

/-- Greedy optional group `(?:w1|w2|...)?` followed by continuation `k`. -/
def matchOptThen (opts : List (List Char)) (k : List Char → Bool) (l : List Char) : Bool :=
  (opts.any fun w => w.isPrefixOf l && k (l.drop w.length)) || k l

/-- Tail of the first location pattern after the captured hanzi:
`(?:市|省|区|县)?(?:的)?(?:天气|气温|温度)`. -/
def weatherAfter (l : List Char) : Bool :=
  matchOptThen locSuffixWords
    (matchOptThen ["的".data] fun l3 => weatherTailWords.any fun w => w.isPrefixOf l3) l

/-- Greedy `{2,8}` attempt at one position: try the longest capture first. -/
def tryWeatherK (l : List Char) : Nat → Option (List Char)
  | 0 => none
  | Nat.succ n =>
    let k := n + 1
    if k < 2 then none
    else
      let cand := l.take k
      if cand.length = k && cand.all isHanzi && weatherAfter (l.drop k) then some cand
      else tryWeatherK l n

/-- Leftmost match of `([一-龥]{2,8})(?:市|省|区|县)?(?:的)?(?:天气|气温|温度)`,
returning group 1. -/
def scanWeatherLoc : List Char → Option (List Char)
  | [] => none
  | c :: r =>
    match tryWeatherK (c :: r) 8 with
    | some g => some g
    | none => scanWeatherLoc r

/-- Greedy `{2,8}` attempt for `([一-龥]{2,8})(市|省|区|县)` at one position,
returning the two captured groups joined. -/
def trySuffixK (l : List Char) : Nat → Option (List Char)
  | 0 => none
  | Nat.succ n =>
    let k := n + 1
    if k < 2 then none
    else
      let cand := l.take k
      if cand.length = k && cand.all isHanzi then
        match locSuffixWords.find? (fun w => w.isPrefixOf (l.drop k)) with
        | some w => some (cand ++ w)
        | none => trySuffixK l n
      else trySuffixK l n

/-- Leftmost match of the second location pattern. -/
def scanSuffixLoc : List Char → Option (List Char)
  | [] => none
  | c :: r =>
    match trySuffixK (c :: r) 8 with
    | some g => some g
    | none => scanSuffixLoc r

/-- `_extract_slots`: leftmost time word, the two-stage location extraction,
and the constant provider tag. -/
def extract_slots (q : List Char) : SlotMap :=
  let whenTok := findFirstWord timeWords q
  let loc :=
    match scanWeatherLoc q with
    | some g => some (String.mk g)
    | none => (scanSuffixLoc q).map String.mk
  { when := whenTok, location := loc, provider := some "metaso" }

/-! ## Router data model

`Decision` is the routing dictionary returned by `route`/`by_rules`; `Seg`
is one validated suggestion segment = one plan step (the dictionaries built
in `_llm_route`'s multi branch and rebuilt in `route`'s plan loop share this
shape).
-/

/-- One suggestion segment / plan step. -/
structure Seg where
  id : String
  q : String
  tool : String
  conf : ℚ
  reasons : List String
  needs_context : Bool
  q_template : String
  deriving DecidableEq, Repr

/-- A routing decision dictionary. `plan := none` models the absent key. -/
structure Decision where
  target : String
  confidence : ℚ
  reasons : List String
  slots : SlotMap := {}
  plan : Option (List Seg) := none
  deriving DecidableEq, Repr

/-- The `_llm_route` result: a single-target suggestion or a multi-segment
decomposition (with the suggestion object's own confidence/reasons).
`none` at the call site models a failed call. -/
inductive Sug where
  | single (target : String) (conf : ℚ) (reasons : List String)
  | multi (segments : List Seg) (conf : ℚ) (reasons : List String)
  deriving DecidableEq, Repr

/-- Environment of `route`: the knowledge-base probe outcome of `_kb_probe`,
the threshold `KB_ROUTE_THRESHOLD`, and the `_llm_route` suggestion. -/
structure RouteEnv where
  kb_ready : Bool
  kb_score : ℚ
  th : ℚ
  sug : Option Sug
  deriving Repr

/-- Zero-padded 3-digit fraction part for `f"{score:.3f}"`. -/
def pad3 (s : String) : String :=
  if s.length = 1 then "00" ++ s else if s.length = 2 then "0" ++ s else s

/-- `f"{x:.3f}"` on a (non-negative) score, with decimal half-up rounding
standing in for the binary float rounding of the source. -/
def fmt3 (r : ℚ) : String :=
  let n : Int := (r * 1000 + 1/2).floor
  toString (n / 1000) ++ "." ++ pad3 (toString (n % 1000))

/-- The reason tag `f"kb:score={kb_score:.3f}"`. -/
def kbScoreTag (s : ℚ) : String := "kb:score=" ++ fmt3 s

/-! ## `_detect_explicit` -/

/-- Explicit f2 pattern `(用|使用|调用).*(知识库|文档|资料|报告|手册|说明书)`. -/
def explicitF2 (q : List Char) : Bool :=
  seqMatch ["用".data, "使用".data, "调用".data]
    ["知识库".data, "文档".data, "资料".data, "报告".data, "手册".data, "说明书".data] q

/-- Explicit f1 pattern `(联网|上网|搜索|搜一下|搜一搜|查一查)`. -/
def explicitF1 (q : List Char) : Bool :=
  containsAny ["联网".data, "上网".data, "搜索".data, "搜一下".data, "搜一搜".data,
    "查一查".data] q

/-- Explicit llm pattern `(不联网|直接回答|纯对话|闲聊)`. -/
def explicitLlm (q : List Char) : Bool :=
  containsAny ["不联网".data, "直接回答".data, "纯对话".data, "闲聊".data] q

/-- `_detect_explicit`: explicit tool instructions, tried f2 → f1 → llm. -/
def detect_explicit (q : List Char) : Option Decision :=
  if explicitF2 q then
    some { target := "f2", confidence := (mkRat 49 50), reasons := ["explicit:f2"] }
  else if explicitF1 q then
    some { target := "f1", confidence := (mkRat 49 50), reasons := ["explicit:f1"],
           slots := extract_slots q }
  else if explicitLlm q then
    some { target := "llm", confidence := (mkRat 49 50), reasons := ["explicit:llm"] }
  else none

/-! ## `by_rules` and `route` -/

/-- Reasons of the web branch of `by_rules`. -/
def webReasons (q : List Char) : List String :=
  (if containsAny timeWords q then ["time"] else [])
    ++ (if containsAny weatherWords q then ["weather"] else [])
    ++ (if containsAny newsWords q then ["news/price"] else [])

/-- The rule baseline `by_rules` (closure inside `route`): greeting →
generation/explanation → math → web → strong KB probe → KB vocabulary hint
→ default llm. -/
def by_rules (q : List Char) (env : RouteEnv) : Decision :=
  if is_greet q then
    { target := "llm", confidence := (mkRat 9 10), reasons := ["greet"] }
  else if prefer_llm q then
    { target := "llm", confidence := (mkRat 17 20), reasons := ["gen"] }
  else if mathSignal q then
    { target := "f3", confidence := (mkRat 17 20), reasons := ["math"] }
  else if webSignal q then
    { target := "f1", confidence := (mkRat 17 20), reasons := webReasons q,
      slots := extract_slots q }
  else if env.kb_ready && decide (env.th ≤ env.kb_score) then
    { target := "f2", confidence := (mkRat 17 20), reasons := [kbScoreTag env.kb_score] }
  else if kbHintSig q then
    { target := "f2", confidence := (mkRat 3 4), reasons := ["kb-hint"] }
  else
    { target := "llm", confidence := (mkRat 7 10), reasons := ["default-llm"] }

/-- Segment re-validation of `route`'s plan loop: an `f1`/`f2` segment whose
own text prefers generation is downgraded to `llm` with a reason tag. -/
def revalidate (segs : List Seg) : List Seg :=
  segs.map fun seg =>
    if (seg.tool = "f1" || seg.tool = "f2") && prefer_llm seg.q.data then
      { seg with tool := "llm", reasons := seg.reasons ++ ["rule:prefer-llm-gen"] }
    else seg

/-- `sorted(plan, key=lambda x: confidence, reverse=True)[0]`: Python's sort
is stable, so this is the earliest segment of maximal confidence. -/
def primaryOf (l : List Seg) : Seg :=
  match l with
  | [] => { id := "", q := "", tool := "llm", conf := 0, reasons := [],
            needs_context := false, q_template := "" }
  | h :: t => t.foldl (fun b s => if b.conf < s.conf then s else b) h

/-- `if plan: out["plan"] = plan`. -/
def attachPlan (plan : List Seg) (d : Decision) : Decision :=
  if plan ≠ [] then { d with plan := some plan } else d

/-- Consistency weighting, suggested target `f1`. -/
def mergeF1 (q : List Char) (webS mathS strongKb kbH : Bool) (kbScore : ℚ)
    (conf : ℚ) (reasons : List String) (plan : List Seg) : Decision :=
  if webS then
    attachPlan plan
      { target := "f1", confidence := max conf (mkRat 9 10),
        reasons := reasons ++ ["rule:web"], slots := extract_slots q }
  else if mathS then
    attachPlan plan
      { target := "f3", confidence := (mkRat 17 20), reasons := reasons ++ ["rule:math"] }
  else if strongKb || kbH then
    attachPlan plan
      { target := "f2", confidence := (mkRat 4 5),
        reasons := reasons ++ [if strongKb then kbScoreTag kbScore else "kb-hint"] }
  else
    attachPlan plan
      { target := "f1", confidence := conf, reasons := reasons,
        slots := extract_slots q }

/-- Consistency weighting, suggested target `f2`. -/
def mergeF2 (q : List Char) (webS mathS strongKb kbH : Bool) (kbScore : ℚ)
    (conf : ℚ) (reasons : List String) (plan : List Seg) : Decision :=
  if strongKb then
    attachPlan plan
      { target := "f2", confidence := max conf (mkRat 9 10),
        reasons := reasons ++ [kbScoreTag kbScore] }
  else if webS then
    attachPlan plan
      { target := "f1", confidence := (mkRat 17 20),
        reasons := reasons ++ ["rule:web"], slots := extract_slots q }
  else if mathS then
    attachPlan plan
      { target := "f3", confidence := (mkRat 17 20), reasons := reasons ++ ["rule:math"] }
  else if kbH then
    attachPlan plan
      { target := "f2", confidence := max conf (mkRat 4 5),
        reasons := reasons ++ ["kb-hint"] }
  else
    attachPlan plan { target := "f2", confidence := conf, reasons := reasons }

/-- Consistency weighting, suggested target `f3`. -/
def mergeF3 (q : List Char) (webS mathS strongKb kbH : Bool) (kbScore : ℚ)
    (conf : ℚ) (reasons : List String) (plan : List Seg) : Decision :=
  if mathS then
    attachPlan plan
      { target := "f3", confidence := max conf (mkRat 9 10),
        reasons := reasons ++ ["rule:math"] }
  else if webS then
    attachPlan plan
      { target := "f1", confidence := (mkRat 17 20),
        reasons := reasons ++ ["rule:web"], slots := extract_slots q }
  else if strongKb || kbH then
    attachPlan plan
      { target := "f2", confidence := (mkRat 4 5),
        reasons := reasons ++ [if strongKb then kbScoreTag kbScore else "kb-hint"] }
  else
    attachPlan plan { target := "f3", confidence := conf, reasons := reasons }

/-- Consistency weighting, suggested target `llm` (the fall-through case of
`route`). -/
def mergeLlm (q : List Char) (webS mathS strongKb kbH : Bool) (kbScore : ℚ)
    (conf : ℚ) (reasons : List String) (plan : List Seg) : Decision :=
  if is_greet q || (is_short_query q && !webS && !mathS && !kbH) then
    attachPlan plan
      { target := "llm", confidence := max conf (mkRat 17 20),
        reasons := reasons ++ [if is_greet q then "greet" else "short"] }
  else if webS then
    attachPlan plan
      { target := "f1", confidence := (mkRat 17 20),
        reasons := reasons ++ ["rule:web"], slots := extract_slots q }
  else if mathS then
    attachPlan plan
      { target := "f3", confidence := (mkRat 17 20), reasons := reasons ++ ["rule:math"] }
  else if strongKb || kbH then
    attachPlan plan
      { target := "f2", confidence := (mkRat 4 5),
        reasons := reasons ++ [if strongKb then kbScoreTag kbScore else "kb-hint"] }
  else
    attachPlan plan
      { target := "llm", confidence := max conf (mkRat 7 10), reasons := reasons }

/-- `route`.  The KB probe outcome and the LLM suggestion are supplied by
`env`.  The result is `none` exactly when the Python function raises: in the
non-multi branch `tgt = sug["target"]` raises `KeyError` whenever the
suggestion dictionary is a `multi` one whose (filtered) segment list is
empty, because `_llm_route`'s multi result carries no `"target"` key. -/
def route (q : List Char) (env : RouteEnv) : Option Decision :=
  match detect_explicit q with
  | some exp => some exp
  | none =>
    let webS := webSignal q
    let mathS := mathSignal q
    let kbH := kbHintSig q
    match env.sug with
    | none => some (by_rules q env)
    | some (.multi [] _ _) => none
    | some sug =>
      let plan : List Seg :=
        match sug with
        | .multi segs _ _ => revalidate segs
        | .single _ _ _ => []
      let tcr : String × ℚ × List String :=
        match sug with
        | .multi segs _ _ =>
          let primary := primaryOf (revalidate segs)
          (primary.tool, primary.conf, "llm:multi-primary" :: primary.reasons)
        | .single t c r => (t, c, r)
      let tgt := tcr.1
      let conf := tcr.2.1
      let reasons := tcr.2.2
      let strongKb := env.kb_ready && decide (env.th ≤ env.kb_score)
      if conf < (mkRat 3 5) then
        let r := by_rules q env
        some (attachPlan plan
          { r with reasons := r.reasons ++ ["rule:override-llm-lowconf"] })
      else if tgt = "f1" then
        some (mergeF1 q webS mathS strongKb kbH env.kb_score conf reasons plan)
      else if tgt = "f2" then
        some (mergeF2 q webS mathS strongKb kbH env.kb_score conf reasons plan)
      else if tgt = "f3" then
        some (mergeF3 q webS mathS strongKb kbH env.kb_score conf reasons plan)
      else
        some (mergeLlm q webS mathS strongKb kbH env.kb_score conf reasons plan)

/-! ## Retrieval probe cache (`_kb_probe` and `_KB_CACHE`)

The filesystem and the index object are abstracted into `KBEnv`: the file
modification times are integers, a loaded index handle is a natural number
drawn from the cache's `next` counter (so that "the same handle" is literal
equality), `load_ok = false` models `KBIndex(...)`/`load()` raising, and
`query_res` models `idx.query`: `none` = the query raises, `some none` =
no hits (score `0.0`), `some (some s)` = top hit with score `s`.
-/

structure KBEnv where
  kb_available : Bool
  meta_exists : Bool
  index_exists : Bool
  mt_meta : Int
  mt_index : Int
  load_ok : Bool
  query_res : Option (Option ℚ)
  deriving Repr

/-- The module-level `_KB_CACHE` dictionary plus a fresh-handle counter. -/
structure KBCache where
  kb_id : Option String := none
  idx : Option Nat := none
  mt_meta : Int := 0
  mt_index : Int := 0
  next : Nat := 0
  deriving DecidableEq, Repr

/-- Result of one probe: `(ready, score)`, the cache afterwards, and whether
a reload (construction of a new `KBIndex`) was attempted. -/
structure KBProbeOut where
  ready : Bool
  score : ℚ
  cache : KBCache
  reloaded : Bool
  deriving DecidableEq, Repr

/-- The tail of `_kb_probe` after the cache is settled: one `top_k=1` query
whose exception is swallowed into `(False, 0.0)`. -/
def kbQuery (env : KBEnv) (st : KBCache) (reloaded : Bool) : KBProbeOut :=
  match env.query_res with
  | none => { ready := false, score := 0, cache := st, reloaded := reloaded }
  | some none => { ready := true, score := 0, cache := st, reloaded := reloaded }
  | some (some s) => { ready := true, score := s, cache := st, reloaded := reloaded }

/-- The staleness check of `_kb_probe` (lines 53–58): no loaded handle yet,
a different knowledge-base id, or either modification time differing from
the cached value. -/
def needsReload (env : KBEnv) (kbId : String) (st : KBCache) : Bool :=
  st.idx.isNone || !(st.kb_id == some kbId)
    || !(st.mt_meta == env.mt_meta) || !(st.mt_index == env.mt_index)

/-- `_kb_probe`: availability and file-existence guards, the staleness
check against the cached id and modification times, reload on mismatch
(updating the cache only after a successful `load()`), then one probe
query.  All exceptions degrade to `(False, 0.0)`. -/
def kb_probe (env : KBEnv) (kbId : String) (st : KBCache) : KBProbeOut :=
  if !env.kb_available then
    { ready := false, score := 0, cache := st, reloaded := false }
  else if !(env.meta_exists && env.index_exists) then
    { ready := false, score := 0, cache := st, reloaded := false }
  else
    if needsReload env kbId st then
      if !env.load_ok then
        { ready := false, score := 0, cache := st, reloaded := true }
      else
        kbQuery env
          { kb_id := some kbId, idx := some st.next, mt_meta := env.mt_meta,
            mt_index := env.mt_index, next := st.next + 1 } true
    else
      kbQuery env st false

/-! ## Tool registry (`core/registry.py`) and orchestrator (`app.py`)

Tool handlers are collaborators: `OrchEnv.handler` may raise (`Except.error`).
`dispatch` itself returns the `unknown feature` result for an id outside the
registry without calling any handler.
-/

/-- One search-result item (title/url/snippet); opaque to the orchestrator. -/
structure Item where
  title : String := ""
  url : String := ""
  snippet : String := ""
  deriving DecidableEq, Repr

/-- A tool result dictionary: the fields the orchestrator reads. -/
structure ToolResult where
  items : List Item := []
  text : Option String := none
  result : Option String := none
  error : Option String := none
  deriving DecidableEq, Repr

/-- A request/step payload dictionary restricted to the keys the core
builds: absent keys are `none`. -/
structure Payload where
  q : String
  k : Option Nat := none
  slots : Option SlotMap := none
  kb_id : Option String := none
  top_k : Option Nat := none
  gen : Option Bool := none
  code : Option String := none
  deriving DecidableEq, Repr

/-- The optional tool-specific fields of the incoming request body that the
orchestrator forwards (`kb_id`, `top_k`, `gen`, `code`). -/
structure RequestData where
  kb_id : Option String := none
  top_k : Option Nat := none
  gen : Option Bool := none
  code : Option String := none
  deriving DecidableEq, Repr

/-- One context entry `{"ans": out.get("result"), "text": out.get("text")}`. -/
structure CtxEntry where
  ans : Option String := none
  text : Option String := none
  deriving DecidableEq, Repr

/-- The context map `ctx`; assignment prepends, lookup takes the newest
binding (observably Python-dict assignment). -/
abbrev Ctx := List (String × CtxEntry)

/-- Orchestrator environment: the registered tool handlers (which may
raise) and the LLM query rewriter (`none` = the rewrite call failed). -/
structure OrchEnv where
  handler : String → Payload → Except String ToolResult
  rewrite : Ctx → String → Option String

/-- The identifiers of `REGISTRY` in `core/registry.py`. -/
def registryIds : List String := ["f1", "llm", "f2", "f3"]

/-- `dispatch`: unknown ids yield the error result without touching any
handler; known ids invoke the registered handler. -/
def dispatch (env : OrchEnv) (target : String) (payload : Payload) :
    Except String ToolResult :=
  if target ∈ registryIds then env.handler target payload
  else .ok { items := [], error := some ("unknown feature: " ++ target) }

/-! ## Context map and template substitution (`answer`, app.py) -/

/-- `ctx.get(sid, ...)`. -/
def ctxGet (ctx : Ctx) (sid : String) : Option CtxEntry :=
  (List.find? (fun e => e.1 == sid) ctx).map (fun e => e.2)

/-- Python `str(...)` on the stored optional value. -/
def pyStr : Option String → String
  | none => "None"
  | some s => s

/-- The replacement callback `_repl` on the key between the braces: split at
the first dot, look up `ctx[sid][var]`; any miss returns the literal token
`m.group(0)` unchanged. -/
def replKey (ctx : Ctx) (key : List Char) : List Char :=
  if '.' ∈ key then
    let sid : String := ⟨key.takeWhile (fun c => c ≠ '.')⟩
    let var : List Char := (key.dropWhile (fun c => c ≠ '.')).tail
    match ctxGet ctx sid with
    | none => '{' :: key ++ ['}']
    | some entry =>
      if var = "ans".data then (pyStr entry.ans).data
      else if var = "text".data then (pyStr entry.text).data
      else '{' :: key ++ ['}']
  else '{' :: key ++ ['}']

/-- Helper for termination of `pySub`. -/
theorem dropWhile_len_le (p : Char → Bool) (l : List Char) :
    (l.dropWhile p).length ≤ l.length := by
  induction l with
  | nil => simp [List.dropWhile]
  | cons c r ih =>
    by_cases h : p c
    · simp [List.dropWhile, h]; omega
    · simp [List.dropWhile, h]

/-- `re.sub(r"\{([^\}]+)\}", _repl, template)`: left-to-right scan; at each
`{`, the (non-empty) run of non-`}` characters up to the next `}` is a
token, replaced by `_repl`; a `{` with no matching `}` (or with an empty
key, as in `{}`) is copied verbatim and scanning resumes at the next
character. -/
def pySub (ctx : Ctx) (l : List Char) : List Char :=
  match l with
  | [] => []
  | c :: rest =>
    if c = '{' then
      if h : (rest.takeWhile (fun x => x ≠ '}')).length < rest.length then
        if (rest.takeWhile (fun x => x ≠ '}')).isEmpty then '{' :: pySub ctx rest
        else
          replKey ctx (rest.takeWhile (fun x => x ≠ '}')) ++
            pySub ctx (rest.drop ((rest.takeWhile (fun x => x ≠ '}')).length + 1))
      else '{' :: pySub ctx rest
    else c :: pySub ctx rest
termination_by l.length
decreasing_by
  all_goals simp
  all_goals omega

/-- String-level wrapper of `pySub`. -/
def pySubst (ctx : Ctx) (s : String) : String := ⟨pySub ctx s.data⟩

/-! ## Plan orchestrator (`answer` in app.py, lines 51–163) -/

/-- `step.get("id") or "s"`. -/
def stepSid (s : Seg) : String := if s.id = "" then "s" else s.id

/-- Resolution of one step's query (app.py lines 74–104): template
substitution when `needs_context` and a template is supplied; LLM query
rewriting (falling back to the sub-question on failure) when
`needs_context` without a template; the raw sub-question otherwise. -/
def stepQOf (env : OrchEnv) (q : String) (ctx : Ctx) (s : Seg) : String :=
  let base := if s.q = "" then q else s.q
  if s.needs_context && !(s.q_template == "") then pySubst ctx s.q_template
  else if s.needs_context then (env.rewrite ctx base).getD base
  else base

/-- Per-tool step payload (app.py lines 107–116). -/
def stepPayload (data : RequestData) (k : Nat) (slots : SlotMap) (tool : String)
    (stepQ : String) : Payload :=
  if tool = "f1" then { q := stepQ, k := some k, slots := some slots }
  else if tool = "f2" then
    { q := stepQ, kb_id := data.kb_id, top_k := data.top_k, gen := data.gen }
  else if tool = "f3" then { q := stepQ, code := data.code }
  else { q := stepQ }

/-- One step-trace record `{id, tool, input, output}`. -/
structure StepRec where
  id : String
  tool : String
  inputQ : String
  out : ToolResult
  deriving DecidableEq, Repr

/-- The plan loop (app.py lines 70–130): sequential dispatch of each step,
accumulating the context map and the trace; the second component is the
loop variable `out` after the loop (the last step's result).  An exception
raised by any handler aborts the whole loop (`Except.error`). -/
def runSteps (env : OrchEnv) (data : RequestData) (k : Nat) (slots : SlotMap)
    (q : String) : List Seg → Ctx → Except String (List StepRec × Option ToolResult)
  | [], _ => .ok ([], none)
  | s :: rest, ctx =>
    let sid := stepSid s
    let sq := stepQOf env q ctx s
    match dispatch env s.tool (stepPayload data k slots s.tool sq) with
    | .error e => .error e
    | .ok out =>
      match runSteps env data k slots q rest ((sid, { ans := out.result, text := out.text }) :: ctx) with
      | .error e => .error e
      | .ok (recs, lastOut) =>
        .ok ({ id := sid, tool := s.tool, inputQ := sq, out := out } :: recs,
             some (lastOut.getD out))

/-- The aggregated response: `results = {primary: items, "steps": steps}`
plus the optional top-level `error` field; `steps := none` models the
single-step response, which carries no step trace. -/
structure Resp where
  query : String
  decision : Decision
  primary : String
  primaryItems : List Item
  steps : Option (List StepRec)
  error : Option String
  deriving DecidableEq, Repr

/-- `target = decision["target"] if decision["target"] != "hybrid" else "f1"`. -/
def resolveTarget (d : Decision) : String :=
  if d.target = "hybrid" then "f1" else d.target

/-- The top-level payload `{"q": q, "k": k, "slots": ..., **data}` restricted
to the modelled keys. -/
def topPayload (q : String) (k : Nat) (slots : SlotMap) (data : RequestData) : Payload :=
  { q := q, k := some k, slots := some slots, kb_id := data.kb_id,
    top_k := data.top_k, gen := data.gen, code := data.code }

/-- Single-step dispatch (app.py lines 153–163); the original logic, also
the fallback when the plan path raised. -/
def singleStep (env : OrchEnv) (q : String) (d : Decision) (target : String)
    (payload : Payload) : Except String Resp :=
  match dispatch env target payload with
  | .error e => .error e
  | .ok result =>
    .ok { query := q, decision := d, primary := target,
          primaryItems := result.items, steps := none, error := result.error }

/-- `answer`'s orchestration core, after request parsing: when the decision
carries a non-empty plan, run it and surface the first trace record of the
primary tool as the backward-compatible top-level result; any exception in
the plan path falls back to single-step dispatch against the pre-plan
target with the original payload. -/
def runAnswer (env : OrchEnv) (data : RequestData) (q : String) (k : Nat)
    (d : Decision) : Except String Resp :=
  let target := resolveTarget d
  let payload := topPayload q k d.slots data
  match d.plan with
  | some plan =>
    if plan ≠ [] then
      let primaryTool := (primaryOf plan).tool
      match runSteps env data k d.slots q plan [] with
      | .ok (recs, lastOut) =>
        .ok { query := q, decision := d, primary := primaryTool,
              primaryItems :=
                match List.find? (fun r => r.tool == primaryTool) recs with
                | some r => r.out.items
                | none => [],
              steps := some recs,
              error := lastOut.bind (fun o => o.error) }
      | .error _ => singleStep env q d target payload
    else singleStep env q d target payload
  | none => singleStep env q d target payload

/-! # Theorems -/

/-! ## C10 — `dispatch` on unknown identifiers -/

/-- C10: for every tool identifier not present in the registry and every
payload, `dispatch` returns (never raises) a result with error
`"unknown feature: <id>"` and empty items; the registered handler is
invoked only when the identifier is known. -/
theorem dispatch_unknown_safe (env : OrchEnv) (t : String) (p : Payload) :
    (t ∉ registryIds →
      dispatch env t p = .ok { items := [], error := some ("unknown feature: " ++ t) }) ∧
    (t ∈ registryIds → dispatch env t p = env.handler t p) := by
  constructor <;> intro h <;> simp [dispatch, h]

/-- Concrete tool environment for witnesses: `f1` raises, the others
answer. -/
def envOrchW : OrchEnv :=
  { handler := fun t p =>
      if t = "f1" then .error "boom"
      else .ok { items := [{ title := "t-" ++ p.q }], text := some ("tx-" ++ p.q),
                 result := some ("r-" ++ p.q) },
    rewrite := fun _ _ => none }

/-- Witness for C10 at the unknown id `"f9"` and the known id `"f2"`. -/
theorem dispatch_unknown_safe_witness :
    ("f9" ∉ registryIds ∧
      dispatch envOrchW "f9" { q := "x" } =
        .ok { items := [], error := some "unknown feature: f9" }) ∧
    ("f2" ∈ registryIds ∧
      dispatch envOrchW "f2" { q := "x" } = envOrchW.handler "f2" { q := "x" }) :=
  ⟨⟨by decide, (dispatch_unknown_safe envOrchW "f9" { q := "x" }).1 (by decide)⟩,
   ⟨by decide, (dispatch_unknown_safe envOrchW "f2" { q := "x" }).2 (by decide)⟩⟩

/-! ## C2 — the merger can in fact raise (code bug)

`_llm_route` can legitimately return `{"mode": "multi", "segments": []}`
(every proposed segment dropped as invalid).  `route` then falls into the
single-target branch and evaluates `sug["target"]` on a dictionary that has
no `"target"` key: an uncaught `KeyError`, contradicting the "never fails"
contract.  `none` is exactly that raise in this embedding.
-/

/-- C2 (failing evaluation): on the query `"hello"` (no explicit pattern)
with a multi suggestion whose segments were all filtered out, `route`
raises (`none`) instead of degrading to the rule-only decision. -/
theorem route_raises_on_empty_multi :
    route "hello".data
      { kb_ready := false, kb_score := 0, th := (mkRat 7 20),
        sug := some (.multi [] (mkRat 9 10) []) } = none := by
  rfl

/-! ## C5 — retrieval probe cache staleness -/

/-- `kbQuery` only reports; it never touches the cache or the reload flag. -/
theorem kbQuery_frame (env : KBEnv) (st : KBCache) (r : Bool) :
    (kbQuery env st r).cache = st ∧ (kbQuery env st r).reloaded = r := by
  unfold kbQuery
  rcases env.query_res with _ | _ | s <;> simp

/-- C5: with the index available on disk, a probe reloads if and only if no
handle is cached, the knowledge-base id changed, or either tracked
modification time differs; and after a probe that settled the cache (a
successful load), a second probe with the same id and unchanged times does
not construct a new handle and reuses the cached one. -/
theorem kb_probe_reload_iff (env : KBEnv) (kbId : String) (st : KBCache)
    (hA : env.kb_available = true) (hM : env.meta_exists = true)
    (hI : env.index_exists = true) :
    ((kb_probe env kbId st).reloaded = true ↔
      (st.idx = none ∨ st.kb_id ≠ some kbId ∨ st.mt_meta ≠ env.mt_meta ∨
        st.mt_index ≠ env.mt_index)) ∧
    (env.load_ok = true →
      (kb_probe env kbId ((kb_probe env kbId st).cache)).reloaded = false ∧
      (kb_probe env kbId ((kb_probe env kbId st).cache)).cache.idx =
        ((kb_probe env kbId st).cache).idx ∧
      ((kb_probe env kbId st).cache).idx.isSome = true) := by
  have hre : ∀ st2 : KBCache, needsReload env kbId st2 = true ↔
      (st2.idx = none ∨ st2.kb_id ≠ some kbId ∨ st2.mt_meta ≠ env.mt_meta ∨
        st2.mt_index ≠ env.mt_index) := by
    intro st2
    simp [needsReload, Option.isNone_iff_eq_none]
    tauto
  have hgenR : ∀ st1 : KBCache, needsReload env kbId st1 = true →
      env.load_ok = true → kb_probe env kbId st1 =
        kbQuery env
          { kb_id := some kbId, idx := some st1.next, mt_meta := env.mt_meta,
            mt_index := env.mt_index, next := st1.next + 1 }
          true := by
    intro st1 h1 h2
    unfold kb_probe
    simp [hA, hM, hI, h1, h2]
  have hgenN : ∀ st1 : KBCache, needsReload env kbId st1 = false →
      kb_probe env kbId st1 = kbQuery env st1 false := by
    intro st1 h1
    unfold kb_probe
    simp [hA, hM, hI, h1]
  have hgenF : ∀ st1 : KBCache, needsReload env kbId st1 = true →
      env.load_ok = false → kb_probe env kbId st1 =
        { ready := false, score := 0, cache := st1, reloaded := true } := by
    intro st1 h1 h2
    unfold kb_probe
    simp [hA, hM, hI, h1, h2]
  have hrel : (kb_probe env kbId st).reloaded = needsReload env kbId st := by
    by_cases hn : needsReload env kbId st = true
    · by_cases hl : env.load_ok = true
      · rw [hgenR st hn hl, (kbQuery_frame env _ true).2, hn]
      · simp only [Bool.not_eq_true] at hl
        rw [hgenF st hn hl, hn]
    · simp only [Bool.not_eq_true] at hn
      rw [hgenN st hn, (kbQuery_frame env st false).2, hn]
  constructor
  · rw [hrel, hre st]
  · intro hl
    by_cases hn : needsReload env kbId st = true
    · have hc1 : (kb_probe env kbId st).cache =
          { kb_id := some kbId, idx := some st.next, mt_meta := env.mt_meta,
            mt_index := env.mt_index, next := st.next + 1 } := by
        rw [hgenR st hn hl, (kbQuery_frame env _ true).1]
      have hn2 : needsReload env kbId ((kb_probe env kbId st).cache) = false := by
        rw [hc1]
        simp [needsReload]
      refine ⟨?_, ?_, ?_⟩
      · rw [hgenN _ hn2, (kbQuery_frame env _ false).2]
      · rw [hgenN _ hn2, (kbQuery_frame env _ false).1]
      · rw [hc1]
        rfl
    · simp only [Bool.not_eq_true] at hn
      have hidx : st.idx.isSome = true := by
        rcases h : st.idx with _ | v
        · simp [needsReload, h] at hn
        · rfl
      have hc1 : (kb_probe env kbId st).cache = st := by
        rw [hgenN st hn, (kbQuery_frame env st false).1]
      rw [hc1]
      refine ⟨?_, ?_, hidx⟩
      · rw [hgenN st hn, (kbQuery_frame env st false).2]
      · rw [hgenN st hn, (kbQuery_frame env st false).1]

/-- Concrete probe environment for the C5 witness. -/
def envKBW : KBEnv :=
  { kb_available := true, meta_exists := true, index_exists := true,
    mt_meta := 10, mt_index := 20, load_ok := true, query_res := some (some (mkRat 1 2)) }

/-- Witness for C5: first use (empty cache) reloads, and the follow-up
probe with unchanged id and times reuses the loaded handle. -/
theorem kb_probe_reload_iff_witness :
    ((kb_probe envKBW "default" {}).reloaded = true ↔
      (({} : KBCache).idx = none ∨ ({} : KBCache).kb_id ≠ some "default" ∨
        ({} : KBCache).mt_meta ≠ envKBW.mt_meta ∨
        ({} : KBCache).mt_index ≠ envKBW.mt_index)) ∧
    (envKBW.load_ok = true →
      (kb_probe envKBW "default" ((kb_probe envKBW "default" {}).cache)).reloaded = false ∧
      (kb_probe envKBW "default" ((kb_probe envKBW "default" {}).cache)).cache.idx =
        ((kb_probe envKBW "default" {}).cache).idx ∧
      ((kb_probe envKBW "default" {}).cache).idx.isSome = true) :=
  kb_probe_reload_iff envKBW "default" {} (by decide) (by decide) (by decide)

/-! ## C1 — explicit override -/

/-- C1: a query matching an explicit-tool pattern makes `route` return the
explicit decision immediately — target is the matched pattern's tool,
confidence exactly (mkRat 49 50), reasons a single tag naming the pattern — for
every environment (any KB probe outcome, any LLM suggestion). -/
theorem route_explicit_override (q : List Char) (env : RouteEnv) (d : Decision)
    (h : detect_explicit q = some d) :
    route q env = some d ∧ d.confidence = (mkRat 49 50) ∧
      ((explicitF2 q = true ∧ d.target = "f2" ∧ d.reasons = ["explicit:f2"]) ∨
       (explicitF2 q = false ∧ explicitF1 q = true ∧ d.target = "f1" ∧
         d.reasons = ["explicit:f1"]) ∨
       (explicitF2 q = false ∧ explicitF1 q = false ∧ explicitLlm q = true ∧
         d.target = "llm" ∧ d.reasons = ["explicit:llm"])) := by
  refine ⟨by simp [route, h], ?_⟩
  unfold detect_explicit at h
  by_cases h2 : explicitF2 q = true
  · rw [if_pos h2] at h
    obtain rfl := Option.some.inj h
    exact ⟨rfl, Or.inl ⟨h2, rfl, rfl⟩⟩
  · simp only [Bool.not_eq_true] at h2
    rw [h2, if_neg (by simp)] at h
    by_cases h1 : explicitF1 q = true
    · rw [if_pos h1] at h
      obtain rfl := Option.some.inj h
      exact ⟨rfl, Or.inr (Or.inl ⟨h2, h1, rfl, rfl⟩)⟩
    · simp only [Bool.not_eq_true] at h1
      rw [h1, if_neg (by simp)] at h
      by_cases h0 : explicitLlm q = true
      · rw [if_pos h0] at h
        obtain rfl := Option.some.inj h
        exact ⟨rfl, Or.inr (Or.inr ⟨h2, h1, h0, rfl, rfl⟩)⟩
      · simp only [Bool.not_eq_true] at h0
        rw [h0, if_neg (by simp)] at h
        exact absurd h (by simp)

/-- A hostile environment for the C1 witness: every other signal points
away from f2 (a web-flavored greeting-free query and a high-confidence f1
suggestion). -/
def envRouteW : RouteEnv :=
  { kb_ready := true, kb_score := 1, th := (mkRat 7 20),
    sug := some (.single "f1" (mkRat 99 100) ["llm-likes-f1"]) }

/-- Witness for C1 at `"用知识库查今天天气"` (explicit f2 phrasing plus web
signals plus a conflicting suggestion): route returns the f2 explicit
decision. -/
theorem route_explicit_override_witness :
    route "用知识库查今天天气".data envRouteW =
      some { target := "f2", confidence := (mkRat 49 50), reasons := ["explicit:f2"] } ∧
    ((mkRat 49 50) : ℚ) = mkRat 49 50 ∧ explicitF2 "用知识库查今天天气".data = true :=
  ⟨(route_explicit_override "用知识库查今天天气".data envRouteW
      { target := "f2", confidence := (mkRat 49 50), reasons := ["explicit:f2"] }
      (by decide)).1,
   (route_explicit_override "用知识库查今天天气".data envRouteW
      { target := "f2", confidence := (mkRat 49 50), reasons := ["explicit:f2"] }
      (by decide)).2.1,
   by decide⟩

/-! ## C3 — low-confidence suggestions are discarded -/

/-- The governing confidence of a suggestion: the primary (re-validated)
segment's for a multi decomposition, the target's for a single one. -/
def govConf : Sug → ℚ
  | .single _ c _ => c
  | .multi segs _ _ => (primaryOf (revalidate segs)).conf

/-- The plan a suggestion carries into the decision: the re-validated
segments of a multi decomposition, nothing for a single suggestion. -/
def sugPlan : Sug → List Seg
  | .single _ _ _ => []
  | .multi segs _ _ => revalidate segs

/-- The degenerate suggestion shape on which `route` raises (C2). -/
def isEmptyMulti : Sug → Bool
  | .multi [] _ _ => true
  | _ => false

/-- C3: a usable suggestion whose governing confidence is below (mkRat 3 5) is
discarded entirely: the decision is `by_rules`' output with the override
tag appended, and the plan (when the suggestion carried one) is still
attached. -/
theorem route_lowconf_override (q : List Char) (env : RouteEnv) (sug : Sug)
    (hE : detect_explicit q = none) (hS : env.sug = some sug)
    (hne : isEmptyMulti sug = false) (hconf : govConf sug < (mkRat 3 5)) :
    route q env = some (attachPlan (sugPlan sug)
      { by_rules q env with
        reasons := (by_rules q env).reasons ++ ["rule:override-llm-lowconf"] }) := by
  rcases sug with ⟨t, c, r⟩ | ⟨segs, c, r⟩
  · simp only [govConf] at hconf
    simp [route, hE, hS, sugPlan, hconf]
  · rcases segs with _ | ⟨s, rest⟩
    · simp [isEmptyMulti] at hne
    · simp only [govConf] at hconf
      simp [route, hE, hS, sugPlan, hconf]

/-- Witness suggestion for C3: a single f1 target at confidence (mkRat 1 2). -/
def sugW : Sug := .single "f1" (mkRat 1 2) ["guess"]

/-- Witness for C3 on a plain query with no signals: the (mkRat 1 2)-confidence f1
suggestion is dropped and the default rule decision (llm at (mkRat 7 10)) comes back
with the override tag. -/
theorem route_lowconf_override_witness :
    route "talk to me about it".data
      { kb_ready := false, kb_score := 0, th := (mkRat 7 20), sug := some sugW } =
      some { target := "llm", confidence := (mkRat 7 10),
             reasons := ["default-llm", "rule:override-llm-lowconf"] } :=
  route_lowconf_override "talk to me about it".data
    { kb_ready := false, kb_score := 0, th := (mkRat 7 20), sug := some sugW } sugW
    (by decide) rfl (by decide) (by decide)

/-! ## C6 — plan failure falls back to single-step dispatch -/

/-- C6: when the decision carries a (non-empty) plan and any step handler
raises during plan iteration, the orchestrator abandons the multi-step path
and dispatches once against the original pre-plan target with the original
payload; provided that tool obeys the tool contract (returns instead of
raising), the caller receives its result, and the response carries no step
trace from the aborted plan (`steps = none`). -/
theorem orchestrator_plan_fallback (env : OrchEnv) (data : RequestData)
    (q : String) (k : Nat) (d : Decision) (plan : List Seg) (e : String)
    (res : ToolResult)
    (hplan : d.plan = some plan) (hne : plan ≠ [])
    (hfail : runSteps env data k d.slots q plan [] = .error e)
    (hok : dispatch env (resolveTarget d) (topPayload q k d.slots data) = .ok res) :
    runAnswer env data q k d =
      .ok { query := q, decision := d, primary := resolveTarget d,
            primaryItems := res.items, steps := none, error := res.error } := by
  unfold runAnswer
  rw [hplan]
  simp only [hne, if_true, ne_eq, not_false_iff, if_pos, hfail]
  unfold singleStep
  rw [hok]

/-- Decision with a one-step f1 plan for the C6 witness: the f1 handler of
`envOrchW` raises, the pre-plan target is llm. -/
def decisionC6W : Decision :=
  { target := "llm", confidence := (mkRat 9 10), reasons := [],
    plan := some [{ id := "s1", q := "sub", tool := "f1", conf := (mkRat 9 10),
                    reasons := [], needs_context := false, q_template := "" }] }

/-- Witness for C6: the aborted plan degrades to a single llm dispatch with
no step trace. -/
theorem orchestrator_plan_fallback_witness :
    runAnswer envOrchW {} "hello" 5 decisionC6W =
      .ok { query := "hello", decision := decisionC6W, primary := "llm",
            primaryItems := [{ title := "t-hello" }], steps := none,
            error := none } :=
  orchestrator_plan_fallback envOrchW {} "hello" 5 decisionC6W
    [{ id := "s1", q := "sub", tool := "f1", conf := (mkRat 9 10),
       reasons := [], needs_context := false, q_template := "" }]
    "boom" { items := [{ title := "t-hello" }], text := some "tx-hello",
             result := some "r-hello" }
    rfl (by decide) rfl rfl

/-! ## C9 — the first primary-tool step supplies the top-level items -/

/-- `List.find?` returns the head of the first satisfying split. -/
theorem find_first_split {α : Type} (p : α → Bool) (pre : List α) (r : α)
    (post : List α) (hpre : ∀ x ∈ pre, p x = false) (hr : p r = true) :
    List.find? p (pre ++ r :: post) = some r := by
  induction pre with
  | nil => simp [List.find?, hr]
  | cons a t ih =>
    have ha : p a = false := hpre a (by simp)
    simp only [List.cons_append, List.find?, ha]
    exact ih fun x hx => hpre x (by simp [hx])

/-- C9: on a successful plan run the full trace is attached, and the
top-level backward-compatibility items are exactly those of the first trace
record (in plan order) whose tool is the primary tool; records of later
same-tool steps stay confined to the trace. -/
theorem plan_primary_items_first (env : OrchEnv) (data : RequestData)
    (q : String) (k : Nat) (d : Decision) (plan : List Seg)
    (recs : List StepRec) (lastOut : Option ToolResult)
    (hplan : d.plan = some plan) (hne : plan ≠ [])
    (hrun : runSteps env data k d.slots q plan [] = .ok (recs, lastOut)) :
    runAnswer env data q k d =
      .ok { query := q, decision := d, primary := (primaryOf plan).tool,
            primaryItems :=
              match List.find? (fun r => r.tool == (primaryOf plan).tool) recs with
              | some r => r.out.items
              | none => [],
            steps := some recs,
            error := lastOut.bind (fun o => o.error) } ∧
    (∀ pre r post, recs = pre ++ r :: post →
      (∀ r2 ∈ pre, r2.tool ≠ (primaryOf plan).tool) →
      r.tool = (primaryOf plan).tool →
      (match List.find? (fun r => r.tool == (primaryOf plan).tool) recs with
       | some r => r.out.items
       | none => ([] : List Item)) = r.out.items) := by
  constructor
  · unfold runAnswer
    rw [hplan]
    simp only [hne, if_true, ne_eq, not_false_iff, if_pos, hrun]
  · intro pre r post hsplit hpre hr
    rw [hsplit, find_first_split (fun r2 => r2.tool == (primaryOf plan).tool) pre r post
      (fun x hx => by simpa using hpre x hx) (by simpa using hr)]

/-- Two-step plan on the same tool (`llm` twice) for the C9 witness. -/
def planC9W : List Seg :=
  [{ id := "s1", q := "q1", tool := "llm", conf := (mkRat 9 10), reasons := [],
     needs_context := false, q_template := "" },
   { id := "s2", q := "q2", tool := "llm", conf := (mkRat 4 5), reasons := [],
     needs_context := false, q_template := "" }]

def decisionC9W : Decision :=
  { target := "llm", confidence := (mkRat 9 10), reasons := [], plan := some planC9W }

/-- First and second trace records for `planC9W` under `envOrchW`. -/
def recC9a : StepRec :=
  { id := "s1", tool := "llm", inputQ := "q1",
    out := { items := [{ title := "t-q1" }], text := some "tx-q1", result := some "r-q1" } }

def recC9b : StepRec :=
  { id := "s2", tool := "llm", inputQ := "q2",
    out := { items := [{ title := "t-q2" }], text := some "tx-q2", result := some "r-q2" } }

/-- The trace `runSteps` produces for `planC9W` under `envOrchW`. -/
def recsC9W : List StepRec := [recC9a, recC9b]

/-- Witness for C9: both steps run the primary tool; the top-level items
are the first step's (`t-q1`), the second step's items appear only in the
trace. -/
theorem plan_primary_items_first_witness :
    runAnswer envOrchW {} "top" 5 decisionC9W =
      .ok { query := "top", decision := decisionC9W, primary := "llm",
            primaryItems :=
              match List.find? (fun r => r.tool == (primaryOf planC9W).tool) recsC9W with
              | some r => r.out.items
              | none => [],
            steps := some recsC9W,
            error := none } ∧
    (match List.find? (fun r => r.tool == (primaryOf planC9W).tool) recsC9W with
     | some r => r.out.items
     | none => ([] : List Item)) = recC9a.out.items := by
  have h := plan_primary_items_first envOrchW {} "top" 5 decisionC9W planC9W
    recsC9W (some { items := [{ title := "t-q2" }], text := some "tx-q2",
                    result := some "r-q2" })
    rfl (by decide) rfl
  refine ⟨h.1, ?_⟩
  exact h.2 [] recC9a [recC9b] rfl (by simp) rfl

/-! ## C4 — template substitution -/

theorem pySub_nil (ctx : Ctx) : pySub ctx [] = [] := by
  simp [pySub]

theorem pySub_cons_ne (ctx : Ctx) (c : Char) (r : List Char) (h : c ≠ '{') :
    pySub ctx (c :: r) = c :: pySub ctx r := by
  rw [pySub]
  simp [h]

theorem pySub_open_noclose (ctx : Ctx) (r : List Char) (h : '}' ∉ r) :
    pySub ctx ('{' :: r) = '{' :: pySub ctx r := by
  have htw : List.takeWhile (fun x => x ≠ '}') r = r := by
    rw [List.takeWhile_eq_self_iff]
    intro x hx
    simp
    intro he
    exact h (he ▸ hx)
  rw [pySub, if_pos rfl, htw, dif_neg (lt_irrefl r.length)]

/-- `takeWhile` passes over a block that satisfies the predicate. -/
theorem takeWhile_append_all {p : Char → Bool} {a : List Char} (l : List Char)
    (h : ∀ x ∈ a, p x = true) :
    List.takeWhile p (a ++ l) = a ++ List.takeWhile p l := by
  induction a with
  | nil => simp
  | cons x t ih =>
    have hx : p x = true := h x (by simp)
    simp only [List.cons_append, List.takeWhile_cons, hx, if_true]
    rw [ih fun y hy => h y (by simp [hy])]

/-- `dropWhile` passes over a block that satisfies the predicate. -/
theorem dropWhile_append_all {p : Char → Bool} {a : List Char} (l : List Char)
    (h : ∀ x ∈ a, p x = true) :
    List.dropWhile p (a ++ l) = List.dropWhile p l := by
  induction a with
  | nil => simp
  | cons x t ih =>
    have hx : p x = true := h x (by simp)
    simp only [List.cons_append, List.dropWhile_cons, hx, if_true]
    exact ih fun y hy => h y (by simp [hy])

/-- Unfolding of `pySub` on a complete token `{key}`: the token (whose key
is non-empty and free of `}`) is handed to `_repl` and scanning resumes
after the closing brace — total, no exception, no partial substitution. -/
theorem pySub_token (ctx : Ctx) (key r : List Char) (hne : key ≠ [])
    (hnb : ∀ x ∈ key, x ≠ '}') :
    pySub ctx ('{' :: (key ++ '}' :: r)) = replKey ctx key ++ pySub ctx r := by
  have hall : ∀ x ∈ key, (fun x => decide (x ≠ '}')) x = true := by
    intro x hx
    simpa using hnb x hx
  have htw : List.takeWhile (fun x => x ≠ '}') (key ++ '}' :: r) = key := by
    rw [takeWhile_append_all _ hall]
    simp [List.takeWhile_cons]
  have hlen : key.length < (key ++ '}' :: r).length := by simp
  have hdrop : (key ++ '}' :: r).drop (key.length + 1) = r := by
    have he : key ++ '}' :: r = (key ++ ['}']) ++ r := by simp
    have h2 : (key ++ ['}']).length = key.length + 1 := by simp
    rw [he, ← h2, List.drop_left]
  have hempty : key.isEmpty = false := by
    cases key
    · exact absurd rfl hne
    · rfl
  rw [pySub, if_pos rfl, htw, dif_pos hlen, hempty, hdrop]
  simp only [Bool.false_eq_true, if_false]

/-- A string with no `}` is scanned through unchanged: no token can close. -/
theorem pySub_no_close (ctx : Ctx) : ∀ l : List Char, '}' ∉ l → pySub ctx l = l := by
  intro l
  induction l with
  | nil => intro _; simp [pySub]
  | cons c r ih =>
    intro h
    have hr : '}' ∉ r := fun hc => h (by simp [hc])
    by_cases hc : c = '{'
    · subst hc
      rw [pySub_open_noclose ctx r hr, ih hr]
    · have : c ≠ '}' := fun he => h (by simp [he])
      rw [pySub_cons_ne ctx c r hc, ih hr]

/-- A block without `{` passes through `pySub` untouched, in front of
anything. -/
theorem pySub_append_noopen (ctx : Ctx) (v r : List Char) (h : '{' ∉ v) :
    pySub ctx (v ++ r) = v ++ pySub ctx r := by
  induction v with
  | nil => simp
  | cons c t ih =>
    have hc : c ≠ '{' := fun he => h (by simp [he])
    have ht : '{' ∉ t := fun hm => h (by simp [hm])
    simp only [List.cons_append]
    rw [pySub_cons_ne ctx c (t ++ r) hc, ih ht]

/-- `_repl` either leaves the literal token or produces a context value. -/
theorem replKey_token_or_value (ctx : Ctx) (key : List Char)
    (hv : ∀ sid e, ctxGet ctx sid = some e →
      '{' ∉ (pyStr e.ans).data ∧ '{' ∉ (pyStr e.text).data) :
    replKey ctx key = '{' :: key ++ ['}'] ∨ '{' ∉ replKey ctx key := by
  unfold replKey
  by_cases hdot : '.' ∈ key
  · simp only [hdot, if_true]
    rcases hg : ctxGet ctx ⟨key.takeWhile fun c => c ≠ '.'⟩ with _ | e
    · left; rfl
    · have := hv _ e hg
      by_cases h1 : (key.dropWhile fun c => c ≠ '.').tail = "ans".data
      · simp only [h1, if_true]
        exact Or.inr this.1
      · by_cases h2 : (key.dropWhile fun c => c ≠ '.').tail = "text".data
        · simp only [h1, if_false, h2, if_true]
          exact Or.inr this.2
        · simp only [h1, if_false, h2]
          left; trivial
  · simp only [hdot, if_false]
    left; trivial

/-- The head of a `dropWhile` residue fails the predicate. -/
theorem dropWhile_head_false {p : Char → Bool} :
    ∀ {l : List Char} {d : Char} {after : List Char},
      List.dropWhile p l = d :: after → p d = false := by
  intro l
  induction l with
  | nil => intro d after h; simp [List.dropWhile] at h
  | cons c r ih =>
    intro d after h
    rw [List.dropWhile_cons] at h
    by_cases hp : p c
    · rw [if_pos hp] at h
      exact ih h
    · rw [if_neg hp] at h
      injection h with h1 h2
      subst h1
      simpa using hp

/-- Immediately closed brace `{}`: no token, the `{` is copied. -/
theorem pySub_open_imm (ctx : Ctx) (t : List Char) :
    pySub ctx ('{' :: '}' :: t) = '{' :: pySub ctx ('}' :: t) := by
  have htw : List.takeWhile (fun x => x ≠ '}') ('}' :: t) = [] := by
    simp [List.takeWhile_cons]
  rw [pySub, if_pos rfl, htw, dif_pos (by simp)]
  simp

/-- Substituting twice is the same as substituting once, provided no stored
context value contains `{`. -/
theorem pySub_idem (ctx : Ctx)
    (hv : ∀ sid e, ctxGet ctx sid = some e →
      '{' ∉ (pyStr e.ans).data ∧ '{' ∉ (pyStr e.text).data) :
    ∀ l : List Char, pySub ctx (pySub ctx l) = pySub ctx l := by
  have main : ∀ n, ∀ l : List Char, l.length ≤ n →
      pySub ctx (pySub ctx l) = pySub ctx l := by
    intro n
    induction n with
    | zero =>
      intro l hl
      have h0 : l = [] := List.eq_nil_of_length_eq_zero (Nat.le_zero.mp hl)
      subst h0
      simp [pySub]
    | succ n ih =>
      intro l hl
      rcases l with _ | ⟨c, rest⟩
      · simp [pySub]
      · have hrl : rest.length ≤ n := by
          simp at hl
          omega
        by_cases hc : c = '{'
        · subst hc
          by_cases hcl : '}' ∈ rest
          · -- rest = content ++ '}' :: after, content brace-free
            rcases hdw : List.dropWhile (fun x => x ≠ '}') rest with _ | ⟨d, after⟩
            · exfalso
              rw [List.dropWhile_eq_nil_iff] at hdw
              have := hdw '}' hcl
              simp at this
            · have hd : d = '}' := by
                have := dropWhile_head_false hdw
                simpa using this
              subst hd
              have hsplit : rest =
                  List.takeWhile (fun x => x ≠ '}') rest ++ '}' :: after := by
                conv_lhs => rw [← List.takeWhile_append_dropWhile
                  (p := fun x => decide (x ≠ '}')) (l := rest)]
                rw [hdw]
              have hnb : ∀ x ∈ List.takeWhile (fun x => x ≠ '}') rest, x ≠ '}' := by
                intro x hx
                have := List.mem_takeWhile_imp hx
                simpa using this
              have hal : after.length ≤ n := by
                have : rest.length =
                    (List.takeWhile (fun x => x ≠ '}') rest).length + 1 + after.length := by
                  conv_lhs => rw [hsplit]
                  simp
                  omega
                omega
              rcases hct : List.takeWhile (fun x => x ≠ '}') rest with _ | ⟨k, ks⟩
              · -- empty content: `{}`
                have hrest : rest = '}' :: after := by
                  conv_lhs => rw [hsplit]
                  rw [hct]
                  simp
                rw [hrest, pySub_open_imm, pySub_cons_ne ctx '}' after (by decide),
                  pySub_open_imm, pySub_cons_ne ctx '}' _ (by decide),
                  ih after (by omega)]
              · -- a real token
                rw [hct] at hsplit hnb
                conv_lhs => rw [hsplit]
                conv_rhs => rw [hsplit]
                rw [pySub_token ctx (k :: ks) after (by simp) hnb]
                rcases replKey_token_or_value ctx (k :: ks) hv with htok | hval
                · rw [htok]
                  have hassoc : ('{' :: (k :: ks) ++ ['}']) ++ pySub ctx after =
                      '{' :: ((k :: ks) ++ '}' :: pySub ctx after) := by
                    simp
                  rw [hassoc, pySub_token ctx (k :: ks) (pySub ctx after) (by simp) hnb,
                    htok, ih after hal]
                  simp
                · rw [pySub_append_noopen ctx _ _ hval, ih after hal]
          · -- no closing brace anywhere after the '{'
            have hno : '}' ∉ '{' :: rest := by
              intro hmem
              rcases hmem with _ | h2
              · exact hcl (by assumption)
            rw [pySub_no_close ctx ('{' :: rest) hno]
            rw [pySub_no_close ctx ('{' :: rest) hno]
        · rw [pySub_cons_ne ctx c rest hc, pySub_cons_ne ctx c (pySub ctx rest) hc,
            ih rest hrl]
  intro l
  exact main l.length l le_rfl

/-- C4 (amended): template substitution is total — a complete `{key}` token
is handed to the replacement callback, which substitutes the recorded
context value for `{sid.ans}`/`{sid.text}` and leaves every unresolved
token as its literal text, with no exception and no partial substitution —
and substitution is idempotent provided no stored context value contains a
`{` character (a value carrying a resolvable placeholder is substituted
again by a second pass, see the counterexample). -/
theorem template_substitution (ctx : Ctx)
    (hv : ∀ sid e, ctxGet ctx sid = some e →
      '{' ∉ (pyStr e.ans).data ∧ '{' ∉ (pyStr e.text).data) :
    (∀ t : String, pySubst ctx (pySubst ctx t) = pySubst ctx t) ∧
    (∀ key r, key ≠ [] → (∀ x ∈ key, x ≠ '}') →
      pySub ctx ('{' :: (key ++ '}' :: r)) = replKey ctx key ++ pySub ctx r) ∧
    (∀ key r, key ≠ [] → (∀ x ∈ key, x ≠ '}') →
      replKey ctx key = '{' :: key ++ ['}'] →
      pySub ctx ('{' :: (key ++ '}' :: r)) = '{' :: key ++ '}' :: pySub ctx r) := by
  refine ⟨?_, ?_, ?_⟩
  · intro t
    show (⟨pySub ctx (pySub ctx t.data)⟩ : String) = ⟨pySub ctx t.data⟩
    rw [pySub_idem ctx hv t.data]
  · intro key r hne hnb
    exact pySub_token ctx key r hne hnb
  · intro key r hne hnb htok
    rw [pySub_token ctx key r hne hnb, htok]
    simp

/-- Context for the C4 counterexample: step `a` recorded a value that is
itself a resolvable placeholder. -/
def ctxC4 : Ctx := [("a", { ans := some "{b.ans}" }), ("b", { ans := some "X" })]

/-- C4 counterexample: substitution is not idempotent as claimed — on the
template `"{a.ans}"` one pass yields `"{b.ans}"`, a second pass yields
`"X"`. -/
theorem template_substitution_not_idempotent :
    pySubst ctxC4 (pySubst ctxC4 "{a.ans}") ≠ pySubst ctxC4 "{a.ans}" ∧
    pySubst ctxC4 "{a.ans}" = "{b.ans}" ∧
    pySubst ctxC4 (pySubst ctxC4 "{a.ans}") = "X" := by
  refine ⟨?_, ?_, ?_⟩ <;>
    simp [pySubst, pySub, replKey, ctxGet, pyStr, ctxC4, List.find?, String.ext_iff]

/-- Brace-free context for the C4 witness. -/
def ctxW4 : Ctx := [("a", { ans := some "42", text := some "answer 42" })]

theorem ctxW4_values_ok : ∀ sid e, ctxGet ctxW4 sid = some e →
    '{' ∉ (pyStr e.ans).data ∧ '{' ∉ (pyStr e.text).data := by
  intro sid e h
  simp only [ctxGet, ctxW4, List.find?] at h
  cases hb : ("a" == sid)
  · simp [hb] at h
  · simp [hb] at h
    subst h
    decide

/-- Witness for C4 on a context whose values are brace-free: both passes
agree and an unresolved token survives literally. -/
theorem template_substitution_witness :
    (pySubst ctxW4 (pySubst ctxW4 "{a.ans} {c.ans} {a.nope}") =
      pySubst ctxW4 "{a.ans} {c.ans} {a.nope}") ∧
    pySub ctxW4 ('{' :: ("a.ans".data ++ '}' :: " end".data)) =
      replKey ctxW4 "a.ans".data ++ pySub ctxW4 " end".data :=
  ⟨(template_substitution ctxW4 ctxW4_values_ok).1 "{a.ans} {c.ans} {a.nope}",
   (template_substitution ctxW4 ctxW4_values_ok).2.1 "a.ans".data " end".data
     (by decide) (by decide)⟩

/-! ## C8 — math signal drives the rule baseline to f3

`by_rules` tests the greeting and generation patterns before the math
signal, so the claim needs that a query with a math signal can match
neither: `_prefer_llm` excludes math by construction, and a greeting (a
greeting word plus greeting punctuation/whitespace only) cannot contain a
math keyword or a math-class character.
-/

/-- Membership survives `dropWhile` unless the predicate held. -/
theorem mem_dropWhile_or {p : Char → Bool} {c : Char} :
    ∀ {l : List Char}, c ∈ l → c ∈ l.dropWhile p ∨ p c = true := by
  intro l
  induction l with
  | nil => intro h; cases h
  | cons a r ih =>
    intro h
    rw [List.dropWhile_cons]
    by_cases hp : p a
    · rw [if_pos hp]
      rcases h with _ | hr
      · exact Or.inr hp
      · exact ih (by assumption)
    · rw [if_neg hp]
      exact Or.inl h

/-- Every character of a query is either whitespace or survives the
strip. -/
theorem mem_trimL_or {c : Char} {l : List Char} (h : c ∈ l) :
    c ∈ trimL l ∨ c.isWhitespace = true := by
  unfold trimL lstripL
  rcases mem_dropWhile_or (p := isWS) h with h1 | h1
  · rcases mem_dropWhile_or (p := isWS) (List.mem_reverse.mpr h1) with h2 | h2
    · exact Or.inl (List.mem_reverse.mpr h2)
    · exact Or.inr h2
  · exact Or.inr h1

/-- Characters of a greeting: whitespace, a (lowered) greeting-word
character, or (lowered) greeting punctuation. -/
theorem greet_chars {q : List Char} (h : is_greet q = true) :
    ∀ c ∈ q, c.isWhitespace = true ∨ lowerC c ∈ greetWords.flatten ∨
      isGreetTail (lowerC c) = true := by
  unfold is_greet at h
  rw [List.any_eq_true] at h
  obtain ⟨w, hw, hcond⟩ := h
  rw [Bool.and_eq_true] at hcond
  obtain ⟨hpre, hall⟩ := hcond
  rw [List.isPrefixOf_iff_prefix] at hpre
  obtain ⟨u, hu⟩ := hpre
  intro c hc
  rcases mem_trimL_or hc with h1 | h1
  · have hmt : lowerC c ∈ (trimL q).map lowerC := List.mem_map_of_mem lowerC h1
    rw [← hu] at hmt
    rcases List.mem_append.mp hmt with h2 | h2
    · exact Or.inr (Or.inl (List.mem_flatten.mpr ⟨w, hw, h2⟩))
    · have hdrop : ((trimL q).map lowerC).drop w.length = u := by
        rw [← hu]
        exact List.drop_left w u
      rw [List.all_eq_true] at hall
      have := hall (lowerC c) (by rw [hdrop]; exact h2)
      exact Or.inr (Or.inr this)
  · exact Or.inl h1

/-- A run of three math characters exhibits a math character in the
string. -/
theorem run3_mem : ∀ l : List Char, run3 l = true → ∃ c ∈ l, isMathChar c = true
  | a :: b :: c :: r, h => by
    rw [run3, Bool.or_eq_true] at h
    rcases h with h1 | h1
    · rw [Bool.and_eq_true, Bool.and_eq_true] at h1
      exact ⟨a, by simp, h1.1.1⟩
    · obtain ⟨d, hd, hm⟩ := run3_mem (b :: c :: r) h1
      exact ⟨d, by simp at hd ⊢; tauto, hm⟩

/-- A substring occurrence puts every character of the word into the
string. -/
theorem isSub_subset : ∀ (l w : List Char), isSubL w l = true →
    ∀ c ∈ w, c ∈ l
  | [], w, h => by
    rw [isSubL] at h
    rw [List.isEmpty_iff.mp h]
    intro c hc
    cases hc
  | d :: r, w, h => by
    rw [isSubL, Bool.or_eq_true] at h
    rcases h with h1 | h1
    · rw [List.isPrefixOf_iff_prefix] at h1
      intro c hc
      exact h1.subset hc
    · intro c hc
      exact List.mem_cons_of_mem d (isSub_subset r w h1 c hc)

/-- No math-class character can occur in a greeting: none is whitespace,
each is fixed by lowering, and none is a greeting-word character or
greeting punctuation. -/
theorem mathChars_not_greet : ∀ c ∈ mathChars, c.isWhitespace = false ∧
    lowerC c = c ∧ c ∉ greetWords.flatten ∧ isGreetTail c = false := by
  decide

/-- Each math keyword contains a character that can appear in no
greeting. -/
theorem mathKws_not_greet : ∀ w ∈ mathKws, ∃ c ∈ w, c.isWhitespace = false ∧
    lowerC c = c ∧ c ∉ greetWords.flatten ∧ isGreetTail c = false := by
  decide

/-- A query with a math signal is not a greeting. -/
theorem math_not_greet {q : List Char} (hm : mathSignal q = true) :
    is_greet q = false := by
  by_contra hg
  rw [Bool.not_eq_false] at hg
  have hchars := greet_chars hg
  have absurdChar : ∀ c ∈ q, c.isWhitespace = false → lowerC c = c →
      c ∉ greetWords.flatten → isGreetTail c = false → False := by
    intro c hc h1 h2 h3 h4
    rcases hchars c hc with h | h | h
    · rw [h1] at h
      cases h
    · rw [h2] at h
      exact h3 h
    · rw [h2] at h
      rw [h4] at h
      cases h
  rw [mathSignal, Bool.or_eq_true] at hm
  rcases hm with h | h
  · rw [containsAny, List.any_eq_true] at h
    obtain ⟨w, hw, hsub⟩ := h
    obtain ⟨c, hcw, p1, p2, p3, p4⟩ := mathKws_not_greet w hw
    exact absurdChar c (isSub_subset q w hsub c hcw) p1 p2 p3 p4
  · obtain ⟨c, hc, hmc⟩ := run3_mem q h
    have hcm : c ∈ mathChars := by
      rw [isMathChar, decide_eq_true_iff] at hmc
      exact hmc
    obtain ⟨p1, p2, p3, p4⟩ := mathChars_not_greet c hcm
    exact absurdChar c hc p1 p2 p3 p4

/-- C8: a query with a math signal and no explicit-tool match drives the
rule baseline, through its fixed order of checks (greeting first, then the
generation pattern, which excludes math by construction), to the
computation tool f3 at confidence exactly 0.85. -/
theorem by_rules_math (q : List Char) (env : RouteEnv)
    (hmath : mathSignal q = true) (hexp : detect_explicit q = none) :
    by_rules q env =
      { target := "f3", confidence := (mkRat 17 20), reasons := ["math"] } := by
  have hg : is_greet q = false := math_not_greet hmath
  have hp : prefer_llm q = false := by
    simp [prefer_llm, hmath]
  rw [by_rules, hg, hp]
  simp [hmath]

/-- Witness for C8 at `"1+2+3="` (an operator run, no explicit pattern). -/
theorem by_rules_math_witness :
    mathSignal "1+2+3=".data = true ∧
    detect_explicit "1+2+3=".data = none ∧
    by_rules "1+2+3=".data envRouteW =
      { target := "f3", confidence := (mkRat 17 20), reasons := ["math"] } :=
  ⟨by decide, by decide,
   by_rules_math "1+2+3=".data envRouteW (by decide) (by decide)⟩

/-! ## C7 — multi-segment primary selection -/

/-- `primaryOf` (the head of Python's stable descending sort) is the
earliest segment of maximal confidence: everything before it is strictly
smaller, nothing anywhere is larger. -/
theorem primaryOf_spec : ∀ (t : List Seg) (h : Seg),
    ∃ l₁ l₂, h :: t = l₁ ++ primaryOf (h :: t) :: l₂ ∧
      (∀ s ∈ l₁, s.conf < (primaryOf (h :: t)).conf) ∧
      (∀ s ∈ h :: t, s.conf ≤ (primaryOf (h :: t)).conf) := by
  intro t
  induction t with
  | nil =>
    intro h
    exact ⟨[], [], by simp [primaryOf], by simp, by simp [primaryOf]⟩
  | cons s t' ih =>
    intro h
    have hfold : primaryOf (h :: s :: t') =
        primaryOf ((if h.conf < s.conf then s else h) :: t') := by
      simp [primaryOf, List.foldl]
    by_cases hcmp : h.conf < s.conf
    · rw [if_pos hcmp] at hfold
      obtain ⟨l₁, l₂, hdec, hlt, hle⟩ := ih s
      refine ⟨h :: l₁, l₂, ?_, ?_, ?_⟩
      · rw [hfold, List.cons_append, ← hdec]
      · intro x hx
        rw [hfold]
        rcases hx with _ | hx2
        · exact lt_of_lt_of_le hcmp (hle s (by simp))
        · exact hlt x (by assumption)
      · intro x hx
        rw [hfold]
        rcases hx with _ | hx2
        · exact le_of_lt (lt_of_lt_of_le hcmp (hle s (by simp)))
        · exact hle x (by assumption)
    · rw [if_neg hcmp] at hfold
      push_neg at hcmp
      obtain ⟨l₁, l₂, hdec, hlt, hle⟩ := ih h
      rcases l₁ with _ | ⟨a, m⟩
      · simp only [List.nil_append] at hdec
        have hp : primaryOf (h :: t') = h := by
          have := congrArg (fun l => l.headD h) hdec
          simpa using this.symm
        refine ⟨[], s :: t', ?_, by simp, ?_⟩
        · rw [hfold, hp]
          simp
        · intro x hx
          rw [hfold, hp]
          rcases hx with _ | hx2
          · exact le_refl _
          · rcases (by assumption : x ∈ s :: t') with _ | hx3
            · exact hcmp
            · have := hle x (by simp; right; assumption)
              rw [hp] at this
              exact this
      · have ha : a = h := by
          have h2 := congrArg (fun l => l.headD h) hdec
          simp at h2
          exact h2.symm
        subst ha
        simp only [List.cons_append, List.cons.injEq, true_and] at hdec
        refine ⟨a :: s :: m, l₂, ?_, ?_, ?_⟩
        · rw [hfold, List.cons_append, List.cons_append, ← hdec]
        · intro x hx
          rw [hfold]
          have hah : a.conf < (primaryOf (a :: t')).conf := hlt a (by simp)
          rcases hx with _ | hx2
          · exact hah
          · rcases (by assumption : x ∈ s :: m) with _ | hx3
            · exact lt_of_le_of_lt hcmp hah
            · exact hlt x (by simp; right; assumption)
        · intro x hx
          rw [hfold]
          have hah : a.conf < (primaryOf (a :: t')).conf := hlt a (by simp)
          rcases hx with _ | hx2
          · exact le_of_lt hah
          · rcases (by assumption : x ∈ s :: t') with _ | hx3
            · exact le_of_lt (lt_of_le_of_lt hcmp hah)
            · exact hle x (by simp; right; assumption)

/-- The orchestrator trace lists exactly the plan's steps, in original plan
order (tools and ids position by position). -/
theorem runSteps_trace (env : OrchEnv) (data : RequestData) (k : Nat)
    (slots : SlotMap) (q : String) :
    ∀ (plan : List Seg) (ctx : Ctx) (recs : List StepRec)
      (lastOut : Option ToolResult),
      runSteps env data k slots q plan ctx = .ok (recs, lastOut) →
      recs.map (fun r => r.tool) = plan.map (fun s => s.tool) ∧
      recs.map (fun r => r.id) = plan.map stepSid := by
  intro plan
  induction plan with
  | nil =>
    intro ctx recs lastOut h
    rw [runSteps] at h
    injection h with h1
    injection h1 with h2 h3
    subst h2
    simp
  | cons s rest ih =>
    intro ctx recs lastOut h
    rw [runSteps] at h
    rcases hd : dispatch env s.tool
        (stepPayload data k slots s.tool (stepQOf env q ctx s)) with e | out
    · rw [hd] at h
      dsimp only at h
      cases h
    · rw [hd] at h
      dsimp only at h
      rcases hr : runSteps env data k slots q rest
          ((stepSid s, { ans := out.result, text := out.text }) :: ctx) with
        e2 | p2
      · rw [hr] at h
        dsimp only at h
        cases h
      · rw [hr] at h
        rcases p2 with ⟨recs2, last2⟩
        dsimp only at h
        injection h with h1
        injection h1 with h2 h3
        subst h2
        have := ih _ recs2 last2 hr
        simp [this.1, this.2]

/-- C7 (amended): for a non-empty multi decomposition accepted by the
merger, the primary segment is the earliest one of maximal confidence; the
suggestion-side target/confidence/reasons fed into consistency
reconciliation are the primary's (tag `llm:multi-primary` prepended), so
that in the absence of any overriding rule signal (web, math, strong-KB,
KB-hint, greeting/short-query pinning) the final Decision's target and
confidence equal the primary's (confidence clamped below at 0.7 when the
target is the general responder); and the orchestrator records its trace in
original segment order, not confidence order. -/
theorem multi_primary_amended (q : List Char) (env : RouteEnv)
    (segs : List Seg) (sc : ℚ) (sr : List String)
    (hE : detect_explicit q = none)
    (hS : env.sug = some (.multi segs sc sr))
    (hne : segs ≠ [])
    (hconf : ¬ (primaryOf (revalidate segs)).conf < (mkRat 3 5))
    (hweb : webSignal q = false) (hmath : mathSignal q = false)
    (hkb : (env.kb_ready && decide (env.th ≤ env.kb_score)) = false)
    (hhint : kbHintSig q = false)
    (htool : (primaryOf (revalidate segs)).tool = "f1" ∨
      (primaryOf (revalidate segs)).tool = "f2" ∨
      (primaryOf (revalidate segs)).tool = "f3" ∨
      (primaryOf (revalidate segs)).tool = "llm")
    (hllm : (primaryOf (revalidate segs)).tool = "llm" →
      is_greet q = false ∧ is_short_query q = false) :
    (∃ l₁ l₂, revalidate segs = l₁ ++ primaryOf (revalidate segs) :: l₂ ∧
      (∀ s ∈ l₁, s.conf < (primaryOf (revalidate segs)).conf) ∧
      (∀ s ∈ revalidate segs, s.conf ≤ (primaryOf (revalidate segs)).conf)) ∧
    route q env = some
      { target := (primaryOf (revalidate segs)).tool,
        confidence := if (primaryOf (revalidate segs)).tool = "llm"
          then max (primaryOf (revalidate segs)).conf (mkRat 7 10)
          else (primaryOf (revalidate segs)).conf,
        reasons := "llm:multi-primary" :: (primaryOf (revalidate segs)).reasons,
        slots := if (primaryOf (revalidate segs)).tool = "f1"
          then extract_slots q else {},
        plan := some (revalidate segs) } ∧
    (∀ (oe : OrchEnv) (data : RequestData) (k : Nat) (slots : SlotMap)
        (q2 : String) (recs : List StepRec) (lastOut : Option ToolResult),
      runSteps oe data k slots q2 (revalidate segs) [] = .ok (recs, lastOut) →
      recs.map (fun r => r.tool) = (revalidate segs).map (fun s => s.tool)) := by
  rcases hsegs : segs with _ | ⟨s0, rest⟩
  · exact absurd hsegs hne
  · subst hsegs
    refine ⟨?_, ?_, ?_⟩
    · rcases hrev : revalidate (s0 :: rest) with _ | ⟨r0, rrest⟩
      · exfalso
        simp [revalidate] at hrev
      · rw [← hrev]
        have := primaryOf_spec rrest r0
        rw [← hrev] at this
        exact this
    · have hplanne : revalidate (s0 :: rest) ≠ [] := by
        simp [revalidate]
      unfold route
      rw [hE, hS]
      simp only [if_neg hconf]
      have hstrong : (env.kb_ready && decide (env.th ≤ env.kb_score)) = false := hkb
      rcases htool with ht | ht | ht | ht
      · rw [ht]
        simp only [if_pos rfl]
        simp [mergeF1, hweb, hmath, hstrong, hhint, attachPlan, hplanne, ht]
      · rw [ht]
        simp only [String.reduceEq, if_false, if_pos rfl]
        simp [mergeF2, hweb, hmath, hstrong, hhint, attachPlan, hplanne, ht]
      · rw [ht]
        simp only [String.reduceEq, if_false, if_pos rfl]
        simp [mergeF3, hweb, hmath, hstrong, hhint, attachPlan, hplanne, ht]
      · rw [ht]
        obtain ⟨hg, hshort⟩ := hllm ht
        simp only [String.reduceEq, if_false]
        simp [mergeLlm, hweb, hmath, hstrong, hhint, attachPlan, hplanne, ht,
          hg, hshort]
    · intro oe data k slots q2 recs lastOut h
      exact (runSteps_trace oe data k slots q2 (revalidate (s0 :: rest)) []
        recs lastOut h).1

/-- One-segment multi suggestion proposing f1 at 0.9 for a math-signal
query. -/
def segsC7 : List Seg :=
  [{ id := "s1", q := "1+2+3=", tool := "f1", conf := (mkRat 9 10),
     reasons := [], needs_context := false, q_template := "" }]

def envC7 : RouteEnv :=
  { kb_ready := false, kb_score := 0, th := (mkRat 7 20),
    sug := some (.multi segsC7 (mkRat 9 10) []) }

/-- C7 counterexample: on `"1+2+3="` the primary segment's tool is `f1`,
but the Decision's target is `f3` at 0.85 — the math rule signal overrides
the primary, so target/confidence are not simply "taken from" the primary
segment. -/
theorem multi_primary_decision_cex :
    (primaryOf (revalidate segsC7)).tool = "f1" ∧
    route "1+2+3=".data envC7 =
      some { target := "f3", confidence := (mkRat 17 20),
             reasons := ["llm:multi-primary", "rule:math"],
             plan := some segsC7 } ∧
    ("f3" : String) ≠ "f1" := by
  refine ⟨by decide, by decide, by decide⟩

/-- The spec's own example: segments f1@0.9 then llm@0.95. -/
def segsC7w : List Seg :=
  [{ id := "s1", q := "first part", tool := "f1", conf := (mkRat 9 10),
     reasons := [], needs_context := false, q_template := "" },
   { id := "s2", q := "second part", tool := "llm", conf := (mkRat 19 20),
     reasons := [], needs_context := false, q_template := "" }]

def envC7w : RouteEnv :=
  { kb_ready := true, kb_score := (mkRat 1 10), th := (mkRat 7 20),
    sug := some (.multi segsC7w (mkRat 19 20) []) }

/-- Witness for C7 on a signal-free query against a loaded knowledge base
whose probe score is below threshold (so no strong-KB signal fires): the
second (higher-confidence) segment is primary, the decision carries its
tool/confidence/reasons, and any successful trace follows segment order. -/
theorem multi_primary_amended_witness :
    (∃ l₁ l₂, revalidate segsC7w = l₁ ++ primaryOf (revalidate segsC7w) :: l₂ ∧
      (∀ s ∈ l₁, s.conf < (primaryOf (revalidate segsC7w)).conf) ∧
      (∀ s ∈ revalidate segsC7w, s.conf ≤ (primaryOf (revalidate segsC7w)).conf)) ∧
    route "abcdefgh".data envC7w = some
      { target := (primaryOf (revalidate segsC7w)).tool,
        confidence := if (primaryOf (revalidate segsC7w)).tool = "llm"
          then max (primaryOf (revalidate segsC7w)).conf (mkRat 7 10)
          else (primaryOf (revalidate segsC7w)).conf,
        reasons := "llm:multi-primary" :: (primaryOf (revalidate segsC7w)).reasons,
        slots := if (primaryOf (revalidate segsC7w)).tool = "f1"
          then extract_slots "abcdefgh".data else {},
        plan := some (revalidate segsC7w) } ∧
    (∀ (oe : OrchEnv) (data : RequestData) (k : Nat) (slots : SlotMap)
        (q2 : String) (recs : List StepRec) (lastOut : Option ToolResult),
      runSteps oe data k slots q2 (revalidate segsC7w) [] = .ok (recs, lastOut) →
      recs.map (fun r => r.tool) = (revalidate segsC7w).map (fun s => s.tool)) :=
  multi_primary_amended "abcdefgh".data envC7w segsC7w (mkRat 19 20) []
    (by decide) rfl (by decide) (by decide) (by decide) (by decide) (by decide)
    (by decide) (Or.inr (Or.inr (Or.inr (by decide))))
    (fun _ => ⟨by decide, by decide⟩)
